import Mathlib

/-
Verification of the route-optimization core of the direction-route repository:
the TTL cache (services/cache.py), the geocoding retry loop
(services/geocoding.py), the matrix client (services/osrm_client.py) and the
brute-force TSP solver (services/tsp_solver.py).

Modelling conventions: Python floats are embedded as exact rationals; HTTP
traffic is embedded by passing the outcome of each upstream request as an
explicit argument (one outcome for the single table request, one outcome per
detail-route request, one outcome per geocoding attempt); raised exceptions
become Except.error carrying the exact message string the Python code builds;
the list of upstream calls actually issued is returned alongside the result.
The cache-miss path of each client is modelled; the cache itself is modelled
separately as TTLCache below.
-/

namespace Routing

/-! ## Expiring cache (services/cache.py, class TTLCache)

The Python store is a dict key -> (timestamp, value).  Dicts preserve
insertion order, overwriting a key keeps its position, and `min` over the
keys returns the first key among those with the minimal timestamp.  The
store is embedded as an association list in insertion order. -/

structure Entry (α : Type) where
  key : String
  time : ℚ
  value : α
deriving DecidableEq

/-- `self._store[key] = (time.time(), value)`: overwrite in place if the key
is present, otherwise append (dict insertion-order semantics). -/
def setRaw {α : Type} (s : List (Entry α)) (k : String) (t : ℚ) (v : α) : List (Entry α) :=
  if s.any (fun e => e.key == k) then
    s.map (fun e => if e.key == k then ⟨k, t, v⟩ else e)
  else
    s ++ [⟨k, t, v⟩]

/-- Python `min(iterable, key=f)`: first element among those with minimal
`f`-value (later elements replace the current minimum only when strictly
smaller). -/
def firstMinBy {β : Type} (f : β → ℚ) (l : List β) : Option β :=
  l.foldl
    (fun acc x =>
      match acc with
      | none => some x
      | some b => if f x < f b then some x else some b)
    none

/-- `_evict_if_needed`: if the store exceeds `max_size`, pop the key with the
oldest timestamp (`min(self._store, key=lambda k: self._store[k][0])`). -/
def evictIfNeeded {α : Type} (maxSize : Nat) (s : List (Entry α)) : List (Entry α) :=
  if s.length ≤ maxSize then s
  else
    match firstMinBy (fun e => e.time) s with
    | none => s
    | some b => s.eraseP (fun e => e.key == b.key)

/-- `TTLCache.set`: insert with the current timestamp, then evict if needed. -/
def cacheSet {α : Type} (maxSize : Nat) (s : List (Entry α)) (k : String) (t : ℚ) (v : α) :
    List (Entry α) :=
  evictIfNeeded maxSize (setRaw s k t v)

/-- `TTLCache.get`: absent keys give `none`; an entry older than `ttl` is
deleted lazily and reported absent; otherwise the value is returned. -/
def cacheGet {α : Type} (ttl : ℚ) (now : ℚ) (s : List (Entry α)) (k : String) :
    Option α × List (Entry α) :=
  match s.find? (fun e => e.key == k) with
  | none => (none, s)
  | some e =>
    if now - e.time > ttl then (none, s.eraseP (fun x => x.key == e.key))
    else (some e.value, s)

lemma setRaw_length {α : Type} (s : List (Entry α)) (k : String) (t : ℚ) (v : α) :
    (setRaw s k t v).length ≤ s.length + 1 := by
  unfold setRaw
  by_cases h : s.any (fun e => e.key == k)
  · simp [h]
  · simp [h]

lemma firstMinBy_go {β : Type} (f : β → ℚ) :
    ∀ (l : List β) (b : β),
      ∃ b', l.foldl
          (fun acc x =>
            match acc with
            | none => some x
            | some b => if f x < f b then some x else some b)
          (some b) = some b' ∧
        (b' = b ∨ b' ∈ l) ∧ f b' ≤ f b ∧ ∀ x ∈ l, f b' ≤ f x := by
  intro l
  induction l with
  | nil =>
    intro b
    exact ⟨b, rfl, Or.inl rfl, le_refl _, by simp⟩
  | cons p t ih =>
    intro b
    by_cases h : f p < f b
    · obtain ⟨b', hfold, hmem, hle, hall⟩ := ih p
      refine ⟨b', ?_, ?_, ?_, ?_⟩
      · simpa [h] using hfold
      · rcases hmem with rfl | hm
        · exact Or.inr (List.mem_cons_self _ _)
        · exact Or.inr (List.mem_cons_of_mem _ hm)
      · exact le_trans hle (le_of_lt h)
      · intro x hx
        rcases List.mem_cons.mp hx with rfl | hx'
        · exact hle
        · exact hall x hx'
    · obtain ⟨b', hfold, hmem, hle, hall⟩ := ih b
      refine ⟨b', ?_, ?_, hle, ?_⟩
      · simpa [h] using hfold
      · rcases hmem with rfl | hm
        · exact Or.inl rfl
        · exact Or.inr (List.mem_cons_of_mem _ hm)
      · intro x hx
        rcases List.mem_cons.mp hx with rfl | hx'
        · exact le_trans hle (not_lt.mp h)
        · exact hall x hx'

lemma firstMinBy_spec {β : Type} (f : β → ℚ) (l : List β) (hl : l ≠ []) :
    ∃ b, firstMinBy f l = some b ∧ b ∈ l ∧ ∀ x ∈ l, f b ≤ f x := by
  match l, hl with
  | p :: t, _ =>
    obtain ⟨b', hfold, hmem, hle, hall⟩ := firstMinBy_go f t p
    refine ⟨b', ?_, ?_, ?_⟩
    · simpa [firstMinBy] using hfold
    · rcases hmem with rfl | hm
      · exact List.mem_cons_self _ _
      · exact List.mem_cons_of_mem _ hm
    · intro x hx
      rcases List.mem_cons.mp hx with rfl | hx'
      · exact hle
      · exact hall x hx'

/-- C8. After any `set` on a store within capacity, the store stays within
capacity; whenever the capacity eviction fires it removes exactly one entry,
one whose insertion timestamp is minimal among all entries of the
post-insert store. -/
theorem ttlcache_set_bounded {α : Type} [DecidableEq α]
    (maxSize : Nat) (s : List (Entry α)) (k : String) (t : ℚ) (v : α)
    (hle : s.length ≤ maxSize) :
    (cacheSet maxSize s k t v).length ≤ maxSize ∧
      (maxSize < (setRaw s k t v).length →
        ∃ b, b ∈ setRaw s k t v ∧ (∀ e ∈ setRaw s k t v, b.time ≤ e.time) ∧
          cacheSet maxSize s k t v = (setRaw s k t v).eraseP (fun e => e.key == b.key) ∧
          (cacheSet maxSize s k t v).length + 1 = (setRaw s k t v).length) := by
  have hlen : (setRaw s k t v).length ≤ s.length + 1 := setRaw_length s k t v
  by_cases hover : (setRaw s k t v).length ≤ maxSize
  · constructor
    · unfold cacheSet evictIfNeeded
      simp [hover]
    · intro hgt
      exact absurd hover (not_le.mpr hgt)
  · have hne : setRaw s k t v ≠ [] := by
      intro hnil
      rw [hnil] at hover
      exact hover (Nat.zero_le _)
    obtain ⟨b, hmin, hbmem, hball⟩ := firstMinBy_spec (fun e => e.time) (setRaw s k t v) hne
    have herase : cacheSet maxSize s k t v = (setRaw s k t v).eraseP (fun e => e.key == b.key) := by
      unfold cacheSet evictIfNeeded
      simp [hover, hmin]
    have hep : ((setRaw s k t v).eraseP (fun e => e.key == b.key)).length
        = (setRaw s k t v).length - 1 :=
      List.length_eraseP_of_mem hbmem (by simp)
    have hpos : 0 < (setRaw s k t v).length := List.length_pos.mpr hne
    constructor
    · rw [herase, hep]
      omega
    · intro _
      refine ⟨b, hbmem, hball, herase, ?_⟩
      rw [herase, hep]
      omega

theorem ttlcache_set_bounded_witness :
    ((cacheSet 1 [⟨"a", 0, (0 : ℚ)⟩] "b" 1 0).length ≤ 1 ∧
      (1 < (setRaw [⟨"a", 0, (0 : ℚ)⟩] "b" 1 0).length →
        ∃ b, b ∈ setRaw [⟨"a", 0, (0 : ℚ)⟩] "b" 1 0 ∧
          (∀ e ∈ setRaw [⟨"a", 0, (0 : ℚ)⟩] "b" 1 0, b.time ≤ e.time) ∧
          cacheSet 1 [⟨"a", 0, (0 : ℚ)⟩] "b" 1 0
            = (setRaw [⟨"a", 0, (0 : ℚ)⟩] "b" 1 0).eraseP (fun e => e.key == b.key) ∧
          (cacheSet 1 [⟨"a", 0, (0 : ℚ)⟩] "b" 1 0).length + 1
            = (setRaw [⟨"a", 0, (0 : ℚ)⟩] "b" 1 0).length)) ∧
    cacheSet 1 [⟨"a", 0, (0 : ℚ)⟩] "b" 1 0 = [⟨"b", 1, 0⟩] :=
  ⟨ttlcache_set_bounded 1 [⟨"a", 0, (0 : ℚ)⟩] "b" 1 0 (by decide), by decide⟩

/-! ## Geocoding client (services/geocoding.py, function geocode)

The retry loop on a cache miss is embedded with the outcome of each of the
up-to-3 upstream attempts supplied as a function of the attempt number.  The
returned pair is (result, list of backoff sleep durations in seconds, in
order).  Error strings are the exact messages the Python code raises. -/

/-- The parsed JSON body a successful response returns verbatim. -/
abbrev Payload := String

/-- Outcome of one `requests.get` attempt: either the transport layer raised
a `RequestException` with the given detail, or an HTTP response arrived with
the given status, text body and parsed JSON payload. -/
inductive AttemptOutcome where
  | transportFail (detail : String)
  | httpResp (status : Nat) (body : String) (payload : Payload)
deriving DecidableEq

/-- Conditions the loop retries: transport failure, or HTTP 429/503. -/
def retryable : AttemptOutcome → Prop
  | .transportFail _ => True
  | .httpResp st _ _ => st = 429 ∨ st = 503

instance (o : AttemptOutcome) : Decidable (retryable o) :=
  match o with
  | .transportFail _ => isTrue trivial
  | .httpResp st _ _ => inferInstanceAs (Decidable (st = 429 ∨ st = 503))

/-- `time.sleep(1.5 * (attempt + 1))` with 0-based `attempt`. -/
def backoff (attempt : Nat) : ℚ := 3 / 2 * ((attempt : ℚ) + 1)

def blockedMessage : String :=
  "Geocoding provider blocked our requests (HTTP 403). Update USER_AGENT or configure your own Nominatim instance."

def unavailStem : String := "Geocoding provider unavailable after retries: "

/-- Message of the exception raised when the loop exhausts all attempts:
`last_error` holds the detail of the most recent transport failure, if any. -/
def unavailMessage (lastError : Option String) : String :=
  unavailStem ++ lastError.getD "unknown error" ++ "."

def httpErrorMessage (st : Nat) : String :=
  "Geocoding provider error (HTTP " ++ toString st ++ ")."

/-- The `for attempt in range(3)` loop of `geocode`, on a cache miss.  `fuel`
counts the remaining iterations, `attempt` the current 0-based attempt
number, `lastError` the `last_error` variable.  Faithful points: `last_error`
is updated only on transport failures; the backoff sleep also runs after the
final attempt when its outcome is retryable; HTTP 403 raises the blocked
message immediately; any other non-2xx... in fact any status other than 200,
429, 503, 403 raises the generic HTTP error message immediately. -/
def geocodeGo (outcomes : Nat → AttemptOutcome) :
    Nat → Nat → Option String → Except String Payload × List ℚ
  | 0, _, lastError => (.error (unavailMessage lastError), [])
  | fuel + 1, attempt, lastError =>
    match outcomes attempt with
    | .transportFail d =>
      let r := geocodeGo outcomes fuel (attempt + 1) (some d)
      (r.fst, backoff attempt :: r.snd)
    | .httpResp st _ payload =>
      if st = 200 then (.ok payload, [])
      else if st = 429 ∨ st = 503 then
        let r := geocodeGo outcomes fuel (attempt + 1) lastError
        (r.fst, backoff attempt :: r.snd)
      else if st = 403 then (.error blockedMessage, [])
      else (.error (httpErrorMessage st), [])

/-- `geocode` on a cache miss: 3 attempts, starting with `last_error = None`. -/
def geocodeRun (outcomes : Nat → AttemptOutcome) : Except String Payload × List ℚ :=
  geocodeGo outcomes 3 0 none

/-- The value of the `last_error` variable after three retryable attempts:
the detail of the most recent transport failure, none when every retryable
attempt was an HTTP 429/503 response. -/
def lastTransportError (outcomes : Nat → AttemptOutcome) : Option String :=
  match outcomes 2 with
  | .transportFail d => some d
  | _ =>
    match outcomes 1 with
    | .transportFail d => some d
    | _ =>
      match outcomes 0 with
      | .transportFail d => some d
      | _ => none

/-- Effect of one retryable attempt on the `last_error` variable: transport
failures overwrite it with their detail, HTTP 429/503 leave it unchanged. -/
def newLast : AttemptOutcome → Option String → Option String
  | .transportFail d, _ => some d
  | .httpResp _ _ _, le => le

lemma geocodeGo_step (outcomes : Nat → AttemptOutcome) (fuel attempt : Nat) (le : Option String)
    (h : retryable (outcomes attempt)) :
    geocodeGo outcomes (fuel + 1) attempt le
      = ((geocodeGo outcomes fuel (attempt + 1) (newLast (outcomes attempt) le)).fst,
         backoff attempt :: (geocodeGo outcomes fuel (attempt + 1) (newLast (outcomes attempt) le)).snd) := by
  rcases ho : outcomes attempt with d | ⟨st, b, p⟩
  · simp [geocodeGo, ho, newLast]
  · rw [ho] at h
    simp only [retryable] at h
    rcases h with rfl | rfl
    · simp [geocodeGo, ho, newLast]
    · simp [geocodeGo, ho, newLast]

lemma geocodeGo_403 (outcomes : Nat → AttemptOutcome) (fuel attempt : Nat) (le : Option String)
    (body : String) (payload : Payload) (h : outcomes attempt = .httpResp 403 body payload) :
    geocodeGo outcomes (fuel + 1) attempt le = (.error blockedMessage, []) := by
  simp [geocodeGo, h]

lemma lastTransport_eq (outcomes : Nat → AttemptOutcome) :
    newLast (outcomes 2) (newLast (outcomes 1) (newLast (outcomes 0) none))
      = lastTransportError outcomes := by
  rcases ho0 : outcomes 0 with d0 | ⟨st0, b0, p0⟩ <;>
    rcases ho1 : outcomes 1 with d1 | ⟨st1, b1, p1⟩ <;>
      rcases ho2 : outcomes 2 with d2 | ⟨st2, b2, p2⟩ <;>
        simp [newLast, lastTransportError, ho0, ho1, ho2]

/-- C6 counterexample: two runs whose three attempts all end in retryable
HTTP conditions, with different last errors (a 429 and a 503 with different
bodies), both produce the identical fixed message
"...unavailable after retries: unknown error." — the raised message carries
no detail of the last error encountered. -/
def attemptsAll429 : Nat → AttemptOutcome := fun _ =>
  .httpResp 429 "rate limited, retry later" "pA"

def attemptsAll503 : Nat → AttemptOutcome := fun _ =>
  .httpResp 503 "service unavailable right now" "pB"

theorem geocode_lastdetail_counterexample :
    (geocodeRun attemptsAll429).fst
        = .error "Geocoding provider unavailable after retries: unknown error." ∧
    (geocodeRun attemptsAll503).fst
        = .error "Geocoding provider unavailable after retries: unknown error." ∧
    attemptsAll429 2 ≠ attemptsAll503 2 ∧
    retryable (attemptsAll429 0) ∧ retryable (attemptsAll429 1) ∧ retryable (attemptsAll429 2) ∧
    retryable (attemptsAll503 0) ∧ retryable (attemptsAll503 1) ∧ retryable (attemptsAll503 2) :=
  ⟨rfl, rfl, by decide, by decide, by decide, by decide, by decide, by decide, by decide⟩

/-- C6 (amended): if all 3 attempts end in retryable conditions, geocode
raises the provider-unavailable failure after sleeping 1.5s x attemptNumber
after each attempt; the message carries the detail of the most recent
transport failure when one occurred, and the fixed text "unknown error"
when every retryable attempt was an HTTP 429/503 response. -/
theorem geocode_exhaust_amended (outcomes : Nat → AttemptOutcome)
    (h0 : retryable (outcomes 0)) (h1 : retryable (outcomes 1))
    (h2 : retryable (outcomes 2)) :
    geocodeRun outcomes
      = (.error (unavailMessage (lastTransportError outcomes)),
         [backoff 0, backoff 1, backoff 2]) := by
  have e0 : geocodeGo outcomes 3 0 none
      = ((geocodeGo outcomes 2 1 (newLast (outcomes 0) none)).fst,
         backoff 0 :: (geocodeGo outcomes 2 1 (newLast (outcomes 0) none)).snd) :=
    geocodeGo_step outcomes 2 0 none h0
  have e1 : geocodeGo outcomes 2 1 (newLast (outcomes 0) none)
      = ((geocodeGo outcomes 1 2 (newLast (outcomes 1) (newLast (outcomes 0) none))).fst,
         backoff 1 :: (geocodeGo outcomes 1 2 (newLast (outcomes 1) (newLast (outcomes 0) none))).snd) :=
    geocodeGo_step outcomes 1 1 _ h1
  have e2 : geocodeGo outcomes 1 2 (newLast (outcomes 1) (newLast (outcomes 0) none))
      = ((geocodeGo outcomes 0 3 (newLast (outcomes 2) (newLast (outcomes 1) (newLast (outcomes 0) none)))).fst,
         backoff 2 :: (geocodeGo outcomes 0 3 (newLast (outcomes 2) (newLast (outcomes 1) (newLast (outcomes 0) none)))).snd) :=
    geocodeGo_step outcomes 0 2 _ h2
  rw [geocodeRun, e0, e1, e2, ← lastTransport_eq outcomes]
  rfl

def attemptsMixed : Nat → AttemptOutcome := fun n =>
  if n = 0 then .transportFail "connection reset by peer" else .httpResp 429 "slow down" "p"

theorem geocode_exhaust_witness :
    geocodeRun attemptsMixed
      = (.error (unavailMessage (some "connection reset by peer")),
         [backoff 0, backoff 1, backoff 2]) :=
  (geocode_exhaust_amended attemptsMixed (by decide) (by decide) (by decide)).trans (by rfl)

lemma blocked_ne_unavail (le : Option String) : blockedMessage ≠ unavailMessage le := by
  intro h
  have hd : blockedMessage.data = (unavailMessage le).data := by rw [h]
  rw [unavailMessage, String.data_append, String.data_append] at hd
  have hlen : unavailStem.data.length = 46 := by decide
  have hlt : 19 < (unavailStem.data ++ (le.getD "unknown error").data).length := by
    rw [List.length_append, hlen]
    omega
  have h19l : blockedMessage.data.get? 19 = some 'b' := by decide
  have h19r : ((unavailStem.data ++ (le.getD "unknown error").data) ++ ".".data).get? 19
      = some 'u' := by
    rw [List.get?_append hlt, List.get?_append (by rw [hlen]; omega)]
    decide
  rw [hd] at h19l
  exact absurd (h19l.symm.trans h19r) (by decide)

lemma geocode_403_aux (outcomes : Nat → AttemptOutcome) (k : Nat) (body : String)
    (payload : Payload) (hk : k < 3) (hpre : ∀ j, j < k → retryable (outcomes j))
    (h403 : outcomes k = .httpResp 403 body payload) :
    geocodeRun outcomes = (.error blockedMessage, (List.range k).map backoff) := by
  match k, hk with
  | 0, _ =>
    have e : geocodeGo outcomes 3 0 none = (.error blockedMessage, []) :=
      geocodeGo_403 outcomes 2 0 none body payload h403
    rw [geocodeRun, e]
    rfl
  | 1, _ =>
    have e0 : geocodeGo outcomes 3 0 none
        = ((geocodeGo outcomes 2 1 (newLast (outcomes 0) none)).fst,
           backoff 0 :: (geocodeGo outcomes 2 1 (newLast (outcomes 0) none)).snd) :=
      geocodeGo_step outcomes 2 0 none (hpre 0 (by omega))
    have e1 : geocodeGo outcomes 2 1 (newLast (outcomes 0) none)
        = (.error blockedMessage, []) :=
      geocodeGo_403 outcomes 1 1 _ body payload h403
    rw [geocodeRun, e0, e1]
    rfl
  | 2, _ =>
    have e0 : geocodeGo outcomes 3 0 none
        = ((geocodeGo outcomes 2 1 (newLast (outcomes 0) none)).fst,
           backoff 0 :: (geocodeGo outcomes 2 1 (newLast (outcomes 0) none)).snd) :=
      geocodeGo_step outcomes 2 0 none (hpre 0 (by omega))
    have e1 : geocodeGo outcomes 2 1 (newLast (outcomes 0) none)
        = ((geocodeGo outcomes 1 2 (newLast (outcomes 1) (newLast (outcomes 0) none))).fst,
           backoff 1 :: (geocodeGo outcomes 1 2 (newLast (outcomes 1) (newLast (outcomes 0) none))).snd) :=
      geocodeGo_step outcomes 1 1 _ (hpre 1 (by omega))
    have e2 : geocodeGo outcomes 1 2 (newLast (outcomes 1) (newLast (outcomes 0) none))
        = (.error blockedMessage, []) :=
      geocodeGo_403 outcomes 0 2 _ body payload h403
    rw [geocodeRun, e0, e1, e2]
    rfl

/-- C7: an HTTP 403 on any attempt makes geocode raise the distinguished
"blocked" failure immediately: no further attempt is consulted (any outcome
function agreeing up to attempt k gives the same run), the sleep trace holds
only the backoffs of the earlier retryable attempts (none for the 403
attempt itself), and the blocked message differs from every
provider-unavailable message. -/
theorem geocode_403_blocked (outcomes : Nat → AttemptOutcome) (k : Nat) (body : String)
    (payload : Payload) (hk : k < 3) (hpre : ∀ j, j < k → retryable (outcomes j))
    (h403 : outcomes k = .httpResp 403 body payload) :
    geocodeRun outcomes = (.error blockedMessage, (List.range k).map backoff) ∧
    (∀ outcomes' : Nat → AttemptOutcome, (∀ j, j ≤ k → outcomes' j = outcomes j) →
      geocodeRun outcomes' = (.error blockedMessage, (List.range k).map backoff)) ∧
    (∀ le : Option String, blockedMessage ≠ unavailMessage le) := by
  refine ⟨geocode_403_aux outcomes k body payload hk hpre h403, ?_, blocked_ne_unavail⟩
  intro outcomes' hagree
  refine geocode_403_aux outcomes' k body payload hk ?_ ?_
  · intro j hj
    rw [hagree j (le_of_lt hj)]
    exact hpre j hj
  · rw [hagree k (le_refl k)]
    exact h403

def attempts403 : Nat → AttemptOutcome := fun n =>
  if n = 0 then .transportFail "connection refused" else .httpResp 403 "forbidden" "p"

theorem geocode_403_blocked_witness :
    geocodeRun attempts403 = (.error blockedMessage, (List.range 1).map backoff) ∧
    (∀ le : Option String, blockedMessage ≠ unavailMessage le) := by
  have h := geocode_403_blocked attempts403 1 "forbidden" "p" (by omega)
    (fun j hj => by
      have hj0 : j = 0 := by omega
      subst hj0
      decide)
    (by decide)
  exact ⟨h.1, h.2.2⟩

/-! ## TSP solver (services/tsp_solver.py, solve_tsp_route) with the matrix
client (services/osrm_client.py, table) and detail-route client (route).

The single OSRM table request's outcome and the per-leg detail-route
outcomes (indexed by the 1-based rank of the leg) are passed as arguments.
The returned pair is (result, list of upstream calls issued). -/

/-- A normalized point dict: label, lat, lon. -/
structure Point where
  label : String
  lat : ℚ
  lon : ℚ
deriving DecidableEq

/-- One candidate of the detail-route response's `routes` list; `get` with
defaults in the Python code makes distance/duration optional. -/
structure RouteCand where
  distance : Option ℚ
  duration : Option ℚ
  geometry : Option String
deriving DecidableEq

/-- Outcome of one `osrm_client.route` call: an exception, or a parsed body
whose `routes` key holds the given candidate list (missing key = `[]`). -/
inductive RouteResult where
  | fail
  | succ (routes : List RouteCand)
deriving DecidableEq

/-- The `durations` / `distances` sub-tables of the parsed table body;
`none` models a missing key. -/
structure TableData where
  durations : Option (List (List ℚ))
  distances : Option (List (List ℚ))
deriving DecidableEq

/-- Outcome of the single `requests.get` of `osrm_client.table`. -/
inductive HttpOutcome where
  | transportFail (detail : String)
  | resp (status : Nat) (body : TableData)
deriving DecidableEq

/-- An upstream call issued by the solver. -/
inductive Call where
  | tableCall
  | routeCall (rank : Nat)
deriving DecidableEq

/-- `osrm_client.table` on a cache miss: a transport failure raises, and
`resp.raise_for_status()` raises exactly for statuses 400..599; otherwise
the parsed body is returned (and cached). -/
def tableClient (h : HttpOutcome) : Except String TableData :=
  match h with
  | .transportFail d => .error d
  | .resp st body =>
    if 400 ≤ st ∧ st < 600 then .error ("HTTP " ++ toString st) else .ok body

/-- Python truthiness of `table_data.get("durations")`: falsy when the key
is missing or the list is empty. -/
def falsyTable : Option (List (List ℚ)) → Bool
  | none => true
  | some l => l.isEmpty

/-- `matrix[i][j]` over the nested lists; indices used by the solver stay in
range for the 5x5 matrices the claims quantify over, so out-of-range access
is given the harmless default 0. -/
def cell (m : List (List ℚ)) (i j : Nat) : ℚ := (m.getD i []).getD j 0

/-- Sum of matrix cells over consecutive pairs of a visit sequence
(`for i in range(len(route_indices) - 1)` accumulation). -/
def pathCost (m : List (List ℚ)) : List Nat → ℚ
  | [] => 0
  | [_] => 0
  | a :: b :: rest => cell m a b + pathCost m (b :: rest)

/-- `route_indices = [0] + list(perm)` plus the closing 0 when
`return_to_origin`. -/
def routeIndices (perm : List Nat) (rto : Bool) : List Nat :=
  0 :: (perm ++ if rto then [0] else [])

def totalDistanceOf (dists : List (List ℚ)) (rto : Bool) (p : List Nat) : ℚ :=
  pathCost dists (routeIndices p rto)

def totalDurationOf (durs : List (List ℚ)) (rto : Bool) (p : List Nat) : ℚ :=
  pathCost durs (routeIndices p rto)

/-- `itertools.permutations`: pick each element in list order as the head,
then recurse on the rest; on a sorted input this is lexicographic order.
`fuel` is the input length. -/
def permsLexF : Nat → List Nat → List (List Nat)
  | 0, _ => [[]]
  | n + 1, l =>
    (List.range l.length).bind
      (fun i => (permsLexF n (l.eraseIdx i)).map (fun p => l.getD i 0 :: p))

def permsLex (l : List Nat) : List (List Nat) := permsLexF l.length l

/-- `dest_indices = list(range(1, 5))`. -/
def destIndices : List Nat := [1, 2, 3, 4]

/-- Strict lexicographic order on index lists. -/
def lexLtB : List Nat → List Nat → Bool
  | [], [] => false
  | [], _ :: _ => true
  | _ :: _, [] => false
  | a :: as, b :: bs => if a < b then true else if a = b then lexLtB as bs else false

/-- One iteration of the permutation loop: compute the permutation's totals,
and replace the best triple exactly when `cost < best_cost` (strict). -/
def selStep (dists durs : List (List ℚ)) (rto : Bool)
    (acc : Option (List Nat × ℚ × ℚ)) (p : List Nat) : Option (List Nat × ℚ × ℚ) :=
  match acc with
  | none => some (p, totalDistanceOf dists rto p, totalDurationOf durs rto p)
  | some (bo, bc, bu) =>
    if totalDistanceOf dists rto p < bc then
      some (p, totalDistanceOf dists rto p, totalDurationOf durs rto p)
    else some (bo, bc, bu)

/-- The whole permutation loop: `best_cost` starts at infinity, so the first
permutation always installs itself; `none` models the initial
`best_order = None`. -/
def select (dists durs : List (List ℚ)) (rto : Bool) : Option (List Nat × ℚ × ℚ) :=
  (permsLex destIndices).foldl (selStep dists durs rto) none

/-- Round-half-to-even on exact rationals (Python `round` idealized over the
embedded exact values). -/
def roundHalfEven (x : ℚ) : ℤ :=
  let f := Int.floor x
  let r := x - (f : ℚ)
  if r < 1 / 2 then f
  else if 1 / 2 < r then f + 1
  else if f % 2 = 0 then f else f + 1

/-- Python `round(x, k)`. -/
def pyRound (k : Nat) (x : ℚ) : ℚ := (roundHalfEven (x * 10 ^ k) : ℚ) / 10 ^ k

structure Leg where
  fromLabel : String
  distance_m : ℚ
  distance_km : ℚ
  duration_s : ℚ
  duration_min : ℚ
  geometry : Option String
deriving DecidableEq

structure RankedDestination where
  rank : Nat
  label : String
  lat : ℚ
  lon : ℚ
  leg : Leg
deriving DecidableEq

structure OptimalRoute where
  total_distance_m : ℚ
  total_distance_km : ℚ
  total_duration_s : ℚ
  total_duration_min : ℚ
  return_to_origin : Bool
deriving DecidableEq

structure SolveResult where
  optimal_route : OptimalRoute
  ranked_destinations : List RankedDestination
deriving DecidableEq

def defaultPoint : Point := ⟨"", 0, 0⟩

def defaultEntry : RankedDestination := ⟨0, "", 0, 0, ⟨"", 0, 0, 0, 0, none⟩⟩

/-- Python `list.index(d)`: 0-based position of the first occurrence,
`none` models the ValueError on a miss. -/
def pyIndex (d : Nat) : List Nat → Option Nat
  | [] => none
  | a :: t => if a = d then some 0 else (pyIndex d t).map (fun i => i + 1)

/-- The `except` branch of the leg reconstruction:
`from_idx = 0 if from_point == origin else list(best_order).index(dest_idx) + 1`
(note: the position of the CURRENT destination in the winning order, not the
previous point's matrix index); a `.index` miss would raise ValueError out of
the whole solve. -/
def fallbackLeg (dists durs : List (List ℚ)) (bo : List Nat) (destIdx : Nat)
    (fromPoint origin : Point) : Except String (ℚ × ℚ × Option String) :=
  if fromPoint = origin then
    .ok (cell dists 0 destIdx, cell durs 0 destIdx, none)
  else
    match pyIndex destIdx bo with
    | some i => .ok (cell dists (i + 1) destIdx, cell durs (i + 1) destIdx, none)
    | none => .error "ValueError: value not in list"

/-- One leg of the winning order: use the first candidate of a successful
detail-route call; on an empty candidate list fall back with
`from_idx = 0 if from_point == origin else best_order.index(dest_idx - 1) + 1`
(a `.index` ValueError there is caught by the `except` branch); on an
exception run the `except` fallback. -/
def legOf (dists durs : List (List ℚ)) (bo : List Nat) (oracle : Nat → RouteResult)
    (rank destIdx : Nat) (fromPoint origin : Point) :
    Except String (ℚ × ℚ × Option String) :=
  match oracle rank with
  | .fail => fallbackLeg dists durs bo destIdx fromPoint origin
  | .succ routes =>
    match routes with
    | r0 :: _ => .ok (r0.distance.getD 0, r0.duration.getD 0, r0.geometry)
    | [] =>
      if fromPoint = origin then
        .ok (cell dists 0 destIdx, cell durs 0 destIdx, none)
      else
        match pyIndex (destIdx - 1) bo with
        | some i => .ok (cell dists (i + 1) destIdx, cell durs (i + 1) destIdx, none)
        | none => fallbackLeg dists durs bo destIdx fromPoint origin

/-- The `for rank, dest_idx in enumerate(best_order, 1)` reconstruction
loop over the remaining suffix `l`, threading `from_point`; also returns the
detail-route calls issued. -/
def reconAux (dists durs : List (List ℚ)) (origin : Point) (dests : List Point)
    (bo : List Nat) (oracle : Nat → RouteResult) :
    List Nat → Nat → Point → Except String (List RankedDestination) × List Call
  | [], _, _ => (.ok [], [])
  | d :: rest, rank, fromPoint =>
    let dest := dests.getD (d - 1) defaultPoint
    match legOf dists durs bo oracle rank d fromPoint origin with
    | .error e => (.error e, [.routeCall rank])
    | .ok (ld, lu, g) =>
      let r := reconAux dists durs origin dests bo oracle rest (rank + 1) dest
      (r.fst.map (fun tail =>
          { rank := rank, label := dest.label, lat := dest.lat, lon := dest.lon,
            leg := { fromLabel := fromPoint.label, distance_m := ld,
                     distance_km := pyRound 3 (ld / 1000), duration_s := lu,
                     duration_min := pyRound 2 (lu / 60), geometry := g } } :: tail),
       .routeCall rank :: r.snd)

/-- `solve_tsp_route(origin, destinations, profile, return_to_origin)` on
cache misses: the count check, the single table request, the sub-table
validation, the 24-permutation selection and the leg reconstruction.
`tbl` is the table request's outcome, `oracle rank` the detail-route
outcome for the leg of that 1-based rank.  The `profile` parameter only
shapes upstream URLs and is omitted. -/
def solve_tsp_route (origin : Point) (destinations : List Point) (return_to_origin : Bool)
    (tbl : HttpOutcome) (oracle : Nat → RouteResult) :
    Except String SolveResult × List Call :=
  if destinations.length ≠ 4 then
    (.error "Exactly 4 destinations are required for TSP solving", [])
  else
    match tableClient tbl with
    | .error e => (.error ("Failed to get distance matrix: " ++ e), [.tableCall])
    | .ok td =>
      if falsyTable td.durations || falsyTable td.distances then
        (.error "Invalid response from OSRM Table API", [.tableCall])
      else
        match select (td.distances.getD []) (td.durations.getD []) return_to_origin with
        | none => (.error "no permutation evaluated", [.tableCall])
        | some (bo, btd, btu) =>
          match reconAux (td.distances.getD []) (td.durations.getD [])
              origin destinations bo oracle bo 1 origin with
          | (.error e, cs) => (.error e, .tableCall :: cs)
          | (.ok ranked, cs) =>
            (.ok { optimal_route :=
                     { total_distance_m := btd, total_distance_km := pyRound 3 (btd / 1000),
                       total_duration_s := btu, total_duration_min := pyRound 2 (btu / 60),
                       return_to_origin := return_to_origin },
                   ranked_destinations := ranked },
             .tableCall :: cs)

def isOkE (x : Except String SolveResult) : Bool :=
  match x with
  | .ok _ => true
  | .error _ => false

/-! ### Properties of the permutation loop -/

lemma selFoldl_spec (dists durs : List (List ℚ)) (rto : Bool) :
    ∀ (l : List (List Nat)) (b : List Nat),
      ∃ b', l.foldl (selStep dists durs rto)
            (some (b, totalDistanceOf dists rto b, totalDurationOf durs rto b))
          = some (b', totalDistanceOf dists rto b', totalDurationOf durs rto b') ∧
        ((b' = b ∧ ∀ p ∈ l, totalDistanceOf dists rto b ≤ totalDistanceOf dists rto p) ∨
         (∃ l1 l2, l = l1 ++ b' :: l2 ∧
            totalDistanceOf dists rto b' < totalDistanceOf dists rto b ∧
            (∀ p ∈ l1, totalDistanceOf dists rto b' < totalDistanceOf dists rto p) ∧
            (∀ p ∈ l2, totalDistanceOf dists rto b' ≤ totalDistanceOf dists rto p))) := by
  intro l
  induction l with
  | nil =>
    intro b
    exact ⟨b, rfl, Or.inl ⟨rfl, by simp⟩⟩
  | cons p t ih =>
    intro b
    rw [List.foldl_cons]
    by_cases h : totalDistanceOf dists rto p < totalDistanceOf dists rto b
    · have hstep : selStep dists durs rto
          (some (b, totalDistanceOf dists rto b, totalDurationOf durs rto b)) p
          = some (p, totalDistanceOf dists rto p, totalDurationOf durs rto p) := by
        simp [selStep, h]
      rw [hstep]
      obtain ⟨b', hfold, hc⟩ := ih p
      refine ⟨b', hfold, Or.inr ?_⟩
      rcases hc with ⟨rfl, hmin⟩ | ⟨l1, l2, rfl, hlt, hl1, hl2⟩
      · exact ⟨[], t, rfl, h, by simp, hmin⟩
      · refine ⟨p :: l1, l2, rfl, lt_trans hlt h, ?_, hl2⟩
        intro q hq
        rcases List.mem_cons.mp hq with rfl | hq'
        · exact hlt
        · exact hl1 q hq'
    · have hstep : selStep dists durs rto
          (some (b, totalDistanceOf dists rto b, totalDurationOf durs rto b)) p
          = some (b, totalDistanceOf dists rto b, totalDurationOf durs rto b) := by
        simp [selStep, h]
      rw [hstep]
      obtain ⟨b', hfold, hc⟩ := ih b
      refine ⟨b', hfold, ?_⟩
      rcases hc with ⟨rfl, hmin⟩ | ⟨l1, l2, rfl, hlt, hl1, hl2⟩
      · refine Or.inl ⟨rfl, ?_⟩
        intro q hq
        rcases List.mem_cons.mp hq with rfl | hq'
        · exact not_lt.mp h
        · exact hmin q hq'
      · refine Or.inr ⟨p :: l1, l2, rfl, hlt, ?_, hl2⟩
        intro q hq
        rcases List.mem_cons.mp hq with rfl | hq'
        · exact lt_of_lt_of_le hlt (not_lt.mp h)
        · exact hl1 q hq'

lemma select_spec (dists durs : List (List ℚ)) (rto : Bool) :
    ∃ b l1 l2,
      select dists durs rto
        = some (b, totalDistanceOf dists rto b, totalDurationOf durs rto b) ∧
      permsLex destIndices = l1 ++ b :: l2 ∧
      (∀ p ∈ l1, totalDistanceOf dists rto b < totalDistanceOf dists rto p) ∧
      (∀ p ∈ l2, totalDistanceOf dists rto b ≤ totalDistanceOf dists rto p) := by
  rcases hperm : permsLex destIndices with _ | ⟨a, t⟩
  · exact absurd hperm (by decide)
  · obtain ⟨b', hfold, hc⟩ := selFoldl_spec dists durs rto t a
    have hsel : select dists durs rto
        = some (b', totalDistanceOf dists rto b', totalDurationOf durs rto b') := by
      rw [select, hperm]
      exact hfold
    rcases hc with ⟨rfl, hmin⟩ | ⟨l1, l2, rfl, hlt, hl1, hl2⟩
    · exact ⟨b', [], t, hsel, rfl, by simp, hmin⟩
    · refine ⟨b', a :: l1, l2, hsel, rfl, ?_, hl2⟩
      intro q hq
      rcases List.mem_cons.mp hq with rfl | hq'
      · exact hlt
      · exact hl1 q hq'

lemma permsLex_sorted :
    List.Pairwise (fun p q => lexLtB p q = true) (permsLex destIndices) := by decide

lemma permsLex_length : ∀ p ∈ permsLex destIndices, p.length = 4 := by decide

lemma pairwise_decomp {α : Type} {R : α → α → Prop} {l l1 l2 : List α} {b : α}
    (hp : List.Pairwise R l) (heq : l = l1 ++ b :: l2) : ∀ q ∈ l2, R b q := by
  subst heq
  have h := (List.pairwise_append.mp hp).2.1
  exact (List.pairwise_cons.mp h).1

/-! ### Properties of the leg reconstruction -/

lemma pyIndex_isSome {d : Nat} : ∀ {l : List Nat}, d ∈ l → ∃ i, pyIndex d l = some i := by
  intro l
  induction l with
  | nil => intro h; cases h
  | cons a t ih =>
    intro h
    by_cases ha : a = d
    · exact ⟨0, by simp [pyIndex, ha]⟩
    · rcases List.mem_cons.mp h with rfl | hm
      · exact absurd rfl ha
      · obtain ⟨i, hi⟩ := ih hm
        exact ⟨i + 1, by simp [pyIndex, ha, hi]⟩

lemma legOf_ok (dists durs : List (List ℚ)) (bo : List Nat) (oracle : Nat → RouteResult)
    (rank d : Nat) (fp origin : Point) (hd : d ∈ bo) :
    ∃ out, legOf dists durs bo oracle rank d fp origin = .ok out := by
  have hfb : ∃ out, fallbackLeg dists durs bo d fp origin = .ok out := by
    unfold fallbackLeg
    by_cases hfo : fp = origin
    · rw [if_pos hfo]
      exact ⟨_, rfl⟩
    · obtain ⟨i, hi⟩ := pyIndex_isSome hd
      rw [if_neg hfo, hi]
      exact ⟨_, rfl⟩
  unfold legOf
  cases oracle rank with
  | fail => exact hfb
  | succ routes =>
    cases routes with
    | cons r0 rs => exact ⟨_, rfl⟩
    | nil =>
      by_cases hfo : fp = origin
      · rw [if_pos hfo]
        exact ⟨_, rfl⟩
      · rw [if_neg hfo]
        cases hidx : pyIndex (d - 1) bo with
        | some i => exact ⟨_, rfl⟩
        | none => exact hfb

lemma reconAux_spec (dists durs : List (List ℚ)) (origin : Point) (dests : List Point)
    (bo : List Nat) (oracle : Nat → RouteResult) :
    ∀ (l : List Nat) (rank : Nat) (fp : Point), (∀ d ∈ l, d ∈ bo) →
      ∃ ranked calls,
        reconAux dists durs origin dests bo oracle l rank fp = (.ok ranked, calls) ∧
        ranked.length = l.length ∧
        ∀ i, i < l.length →
          (ranked.getD i defaultEntry).rank = rank + i ∧
          (ranked.getD i defaultEntry).label
            = (dests.getD ((l.getD i 0) - 1) defaultPoint).label ∧
          (ranked.getD i defaultEntry).lat
            = (dests.getD ((l.getD i 0) - 1) defaultPoint).lat ∧
          (ranked.getD i defaultEntry).lon
            = (dests.getD ((l.getD i 0) - 1) defaultPoint).lon ∧
          (ranked.getD i defaultEntry).leg.fromLabel
            = (if i = 0 then fp else dests.getD ((l.getD (i - 1) 0) - 1) defaultPoint).label := by
  intro l
  induction l with
  | nil =>
    intro rank fp _
    exact ⟨[], [], rfl, rfl, fun i hi => absurd hi (by simp)⟩
  | cons d rest ih =>
    intro rank fp hsub
    obtain ⟨out, hleg⟩ :=
      legOf_ok dists durs bo oracle rank d fp origin (hsub d (List.mem_cons_self d rest))
    obtain ⟨ld, lu, g⟩ := out
    obtain ⟨tail, calls, hrec, hlen, hprops⟩ :=
      ih (rank + 1) (dests.getD (d - 1) defaultPoint)
        (fun x hx => hsub x (List.mem_cons_of_mem d hx))
    refine ⟨{ rank := rank, label := (dests.getD (d - 1) defaultPoint).label,
              lat := (dests.getD (d - 1) defaultPoint).lat,
              lon := (dests.getD (d - 1) defaultPoint).lon,
              leg := { fromLabel := fp.label, distance_m := ld,
                       distance_km := pyRound 3 (ld / 1000), duration_s := lu,
                       duration_min := pyRound 2 (lu / 60), geometry := g } } :: tail,
           .routeCall rank :: calls, ?_, by simp [hlen], ?_⟩
    · simp only [reconAux, hleg, hrec]
      rfl
    · intro i hi
      match i with
      | 0 =>
        refine ⟨by simp, ?_, ?_, ?_, ?_⟩ <;> simp
      | Nat.succ j =>
        have hj : j < rest.length := by
          simp only [List.length_cons] at hi
          omega
        obtain ⟨hr, hlab, hlat, hlon, hfrom⟩ := hprops j hj
        refine ⟨?_, ?_, ?_, ?_, ?_⟩
        · rw [List.getD_cons_succ, hr]
          omega
        · rw [List.getD_cons_succ, hlab, List.getD_cons_succ]
        · rw [List.getD_cons_succ, hlat, List.getD_cons_succ]
        · rw [List.getD_cons_succ, hlon, List.getD_cons_succ]
        · rw [List.getD_cons_succ, hfrom]
          match j with
          | 0 => simp
          | Nat.succ k => simp

lemma length_four_destruct (l : List Nat) (h : l.length = 4) :
    ∃ a b c d, l = [a, b, c, d] := by
  rcases l with _ | ⟨a, l⟩
  · simp at h
  rcases l with _ | ⟨b, l⟩
  · simp at h
  rcases l with _ | ⟨c, l⟩
  · simp at h
  rcases l with _ | ⟨d, l⟩
  · simp at h
  rcases l with _ | ⟨e, l⟩
  · exact ⟨a, b, c, d, rfl⟩
  · simp at h

lemma pathCost_close (m : List (List ℚ)) (b : List Nat) (hb : b.length = 4) :
    pathCost m (routeIndices b true)
      = pathCost m (routeIndices b false) + cell m (b.getD 3 0) 0 := by
  obtain ⟨x0, x1, x2, x3, rfl⟩ := length_four_destruct b hb
  simp [routeIndices, pathCost]
  ring

/-- The full success-path characterization of `solve_tsp_route` on a table
response whose status `raise_for_status` does not raise on (any status
outside 400..599) carrying non-empty sub-tables. -/
lemma solve_ok_spec (origin : Point) (dests : List Point) (rto : Bool) (st : Nat)
    (durs dists : List (List ℚ)) (oracle : Nat → RouteResult)
    (h4 : dests.length = 4) (hdu : durs ≠ []) (hdi : dists ≠ [])
    (hst : ¬ (400 ≤ st ∧ st < 600)) :
    ∃ b l1 l2 ranked calls,
      select dists durs rto
        = some (b, totalDistanceOf dists rto b, totalDurationOf durs rto b) ∧
      permsLex destIndices = l1 ++ b :: l2 ∧
      (∀ p ∈ l1, totalDistanceOf dists rto b < totalDistanceOf dists rto p) ∧
      (∀ p ∈ l2, totalDistanceOf dists rto b ≤ totalDistanceOf dists rto p) ∧
      b.length = 4 ∧
      reconAux dists durs origin dests b oracle b 1 origin = (.ok ranked, calls) ∧
      solve_tsp_route origin dests rto (.resp st ⟨some durs, some dists⟩) oracle
        = (.ok { optimal_route :=
                   { total_distance_m := totalDistanceOf dists rto b,
                     total_distance_km := pyRound 3 (totalDistanceOf dists rto b / 1000),
                     total_duration_s := totalDurationOf durs rto b,
                     total_duration_min := pyRound 2 (totalDurationOf durs rto b / 60),
                     return_to_origin := rto },
                 ranked_destinations := ranked },
           .tableCall :: calls) ∧
      ranked.length = 4 ∧
      ∀ i, i < 4 →
        (ranked.getD i defaultEntry).rank = 1 + i ∧
        (ranked.getD i defaultEntry).label
          = (dests.getD ((b.getD i 0) - 1) defaultPoint).label ∧
        (ranked.getD i defaultEntry).lat
          = (dests.getD ((b.getD i 0) - 1) defaultPoint).lat ∧
        (ranked.getD i defaultEntry).lon
          = (dests.getD ((b.getD i 0) - 1) defaultPoint).lon ∧
        (ranked.getD i defaultEntry).leg.fromLabel
          = (if i = 0 then origin else dests.getD ((b.getD (i - 1) 0) - 1) defaultPoint).label := by
  obtain ⟨b, l1, l2, hsel, hdecomp, hl1, hl2⟩ := select_spec dists durs rto
  have hbmem : b ∈ permsLex destIndices := by
    rw [hdecomp]
    exact List.mem_append_right l1 (List.mem_cons_self b l2)
  have hb4 : b.length = 4 := permsLex_length b hbmem
  obtain ⟨ranked, calls, hrec, hlen, hprops⟩ :=
    reconAux_spec dists durs origin dests b oracle b 1 origin (fun d hd => hd)
  have hfdu : falsyTable (some durs) = false := by
    cases durs with
    | nil => exact absurd rfl hdu
    | cons x xs => rfl
  have hfdi : falsyTable (some dists) = false := by
    cases dists with
    | nil => exact absurd rfl hdi
    | cons x xs => rfl
  have htc : tableClient (.resp st ⟨some durs, some dists⟩) = .ok ⟨some durs, some dists⟩ := by
    simp [tableClient, hst]
  have hsol : solve_tsp_route origin dests rto (.resp st ⟨some durs, some dists⟩) oracle
      = (.ok { optimal_route :=
                 { total_distance_m := totalDistanceOf dists rto b,
                   total_distance_km := pyRound 3 (totalDistanceOf dists rto b / 1000),
                   total_duration_s := totalDurationOf durs rto b,
                   total_duration_min := pyRound 2 (totalDurationOf durs rto b / 60),
                   return_to_origin := rto },
               ranked_destinations := ranked },
         .tableCall :: calls) := by
    rw [solve_tsp_route, if_neg (fun h => h h4), htc]
    simp only [hfdu, hfdi, Bool.or_self, Bool.false_eq_true, not_false_eq_true, if_false,
      Option.getD_some, hsel, hrec]
  refine ⟨b, l1, l2, ranked, calls, hsel, hdecomp, hl1, hl2, hb4, hrec, hsol, by omega, ?_⟩
  intro i hi
  exact hprops i (by omega)

/-! ### Concrete inputs used by witnesses and counterexamples -/

def originO : Point := ⟨"O", 0, 0⟩

def destsABCD : List Point := [⟨"A", 1, 1⟩, ⟨"B", 2, 2⟩, ⟨"C", 3, 3⟩, ⟨"D", 4, 4⟩]

def destsABC : List Point := [⟨"A", 1, 1⟩, ⟨"B", 2, 2⟩, ⟨"C", 3, 3⟩]

/-- Line matrix: consecutive hops cost 1, every other hop 10; the identity
permutation `[1,2,3,4]` is the unique optimum (cost 4, all others >= 13). -/
def mLine : List (List ℚ) :=
  [[0, 1, 10, 10, 10], [10, 0, 1, 10, 10], [10, 10, 0, 1, 10], [10, 10, 10, 0, 1],
   [1, 10, 10, 10, 0]]

/-- Uniform matrix: every hop costs 1, so all 24 permutations tie. -/
def mUnif : List (List ℚ) :=
  [[0, 1, 1, 1, 1], [1, 0, 1, 1, 1], [1, 1, 0, 1, 1], [1, 1, 1, 0, 1], [1, 1, 1, 1, 0]]

def oracleLeg2Fails : Nat → RouteResult := fun rank =>
  if rank = 2 then .fail else .succ [⟨some 100, some 10, some "geom"⟩]

def oracleFailAll : Nat → RouteResult := fun _ => .fail

def oracleSuccAll : Nat → RouteResult := fun _ => .succ [⟨some 250, some 30, some "line"⟩]

def defaultResult : SolveResult := ⟨⟨0, 0, 0, 0, false⟩, []⟩

def okOrDefault (x : Except String SolveResult) : SolveResult :=
  match x with
  | .ok r => r
  | .error _ => defaultResult

/-! ### Claim theorems for the solver -/

/-- C1: for every 5-point cost matrix accepted by the solver (4 destinations,
non-empty sub-tables), the solve succeeds and the chosen route's
`total_distance_m` is less than or equal to the total distance of every one
of the 24 enumerated permutations (hence of each of the other 23), for both
values of `return_to_origin`. -/
theorem tsp_chosen_is_minimum (origin : Point) (dests : List Point) (rto : Bool)
    (durs dists : List (List ℚ)) (oracle : Nat → RouteResult)
    (h4 : dests.length = 4) (hdu : durs ≠ []) (hdi : dists ≠ []) :
    ∃ res calls,
      solve_tsp_route origin dests rto (.resp 200 ⟨some durs, some dists⟩) oracle
        = (.ok res, calls) ∧
      ∀ p ∈ permsLex destIndices,
        res.optimal_route.total_distance_m ≤ totalDistanceOf dists rto p := by
  obtain ⟨b, l1, l2, ranked, calls, hsel, hdecomp, hl1, hl2, hb4, hrec, hsol, hlen, hprops⟩ :=
    solve_ok_spec origin dests rto 200 durs dists oracle h4 hdu hdi (by omega)
  refine ⟨_, _, hsol, ?_⟩
  intro p hp
  show totalDistanceOf dists rto b ≤ totalDistanceOf dists rto p
  rw [hdecomp] at hp
  rcases List.mem_append.mp hp with hp1 | hp2
  · exact le_of_lt (hl1 p hp1)
  · rcases List.mem_cons.mp hp2 with rfl | hp2'
    · exact le_refl _
    · exact hl2 p hp2'

theorem tsp_chosen_is_minimum_witness :
    ∃ res calls,
      solve_tsp_route originO destsABCD false (.resp 200 ⟨some mUnif, some mUnif⟩) oracleFailAll
        = (.ok res, calls) ∧
      ∀ p ∈ permsLex destIndices,
        res.optimal_route.total_distance_m ≤ totalDistanceOf mUnif false p :=
  tsp_chosen_is_minimum originO destsABCD false mUnif mUnif oracleFailAll
    (by decide) (by decide) (by decide)

/-- C2: the chosen permutation is the first one of the fixed lexicographic
enumeration attaining the minimum: every enumerated permutation of equal
total distance either is the chosen one or follows it in lexicographic
order, for every matrix and both values of `return_to_origin`. -/
theorem tsp_tie_break_lex (origin : Point) (dests : List Point) (rto : Bool)
    (durs dists : List (List ℚ)) (oracle : Nat → RouteResult)
    (h4 : dests.length = 4) (hdu : durs ≠ []) (hdi : dists ≠ []) :
    ∃ b btu res calls,
      select dists durs rto = some (b, totalDistanceOf dists rto b, btu) ∧
      solve_tsp_route origin dests rto (.resp 200 ⟨some durs, some dists⟩) oracle
        = (.ok res, calls) ∧
      res.optimal_route.total_distance_m = totalDistanceOf dists rto b ∧
      b ∈ permsLex destIndices ∧
      ∀ q ∈ permsLex destIndices,
        totalDistanceOf dists rto q = totalDistanceOf dists rto b →
          b = q ∨ lexLtB b q = true := by
  obtain ⟨b, l1, l2, ranked, calls, hsel, hdecomp, hl1, hl2, hb4, hrec, hsol, hlen, hprops⟩ :=
    solve_ok_spec origin dests rto 200 durs dists oracle h4 hdu hdi (by omega)
  have hbmem : b ∈ permsLex destIndices := by
    rw [hdecomp]
    exact List.mem_append_right l1 (List.mem_cons_self b l2)
  refine ⟨b, totalDurationOf durs rto b, _, _, hsel, hsol, rfl, hbmem, ?_⟩
  intro q hq hqe
  rw [hdecomp] at hq
  rcases List.mem_append.mp hq with h1 | h2
  · exact absurd hqe (ne_of_gt (hl1 q h1))
  · rcases List.mem_cons.mp h2 with rfl | h2'
    · exact Or.inl rfl
    · exact Or.inr (pairwise_decomp permsLex_sorted hdecomp q h2')

theorem tsp_tie_break_lex_witness :
    ∃ b btu res calls,
      select mUnif mUnif true = some (b, totalDistanceOf mUnif true b, btu) ∧
      solve_tsp_route originO destsABCD true (.resp 200 ⟨some mUnif, some mUnif⟩) oracleSuccAll
        = (.ok res, calls) ∧
      res.optimal_route.total_distance_m = totalDistanceOf mUnif true b ∧
      b ∈ permsLex destIndices ∧
      ∀ q ∈ permsLex destIndices,
        totalDistanceOf mUnif true q = totalDistanceOf mUnif true b →
          b = q ∨ lexLtB b q = true :=
  tsp_tie_break_lex originO destsABCD true mUnif mUnif oracleSuccAll
    (by decide) (by decide) (by decide)

/-- C9: with `return_to_origin = true` the chosen route's totals equal the
open-path totals of the chosen permutation plus the closing origin-leg cell,
while `ranked_destinations` still has exactly 4 entries. -/
theorem tsp_return_to_origin_totals (origin : Point) (dests : List Point)
    (durs dists : List (List ℚ)) (oracle : Nat → RouteResult)
    (h4 : dests.length = 4) (hdu : durs ≠ []) (hdi : dists ≠ []) :
    ∃ res calls b btu,
      solve_tsp_route origin dests true (.resp 200 ⟨some durs, some dists⟩) oracle
        = (.ok res, calls) ∧
      select dists durs true = some (b, totalDistanceOf dists true b, btu) ∧
      res.optimal_route.total_distance_m
        = pathCost dists (routeIndices b false) + cell dists (b.getD 3 0) 0 ∧
      res.optimal_route.total_duration_s
        = pathCost durs (routeIndices b false) + cell durs (b.getD 3 0) 0 ∧
      res.ranked_destinations.length = 4 := by
  obtain ⟨b, l1, l2, ranked, calls, hsel, hdecomp, hl1, hl2, hb4, hrec, hsol, hlen, hprops⟩ :=
    solve_ok_spec origin dests true 200 durs dists oracle h4 hdu hdi (by omega)
  refine ⟨_, _, b, totalDurationOf durs true b, hsol, hsel, ?_, ?_, hlen⟩
  · show totalDistanceOf dists true b = _
    exact pathCost_close dists b hb4
  · show totalDurationOf durs true b = _
    exact pathCost_close durs b hb4

theorem tsp_return_to_origin_totals_witness :
    ∃ res calls b btu,
      solve_tsp_route originO destsABCD true (.resp 200 ⟨some mLine, some mLine⟩) oracleSuccAll
        = (.ok res, calls) ∧
      select mLine mLine true = some (b, totalDistanceOf mLine true b, btu) ∧
      res.optimal_route.total_distance_m
        = pathCost mLine (routeIndices b false) + cell mLine (b.getD 3 0) 0 ∧
      res.optimal_route.total_duration_s
        = pathCost mLine (routeIndices b false) + cell mLine (b.getD 3 0) 0 ∧
      res.ranked_destinations.length = 4 :=
  tsp_return_to_origin_totals originO destsABCD mLine mLine oracleSuccAll
    (by decide) (by decide) (by decide)

/-- C10: every successful solve yields a chained itinerary: ranks are
1,2,3,4 in order, the first leg starts at the origin's label, each later
leg starts at the previous entry's label, and each entry's label/lat/lon
are copied from the input destination selected by the winning order. -/
theorem tsp_ranked_chain (origin : Point) (dests : List Point) (rto : Bool)
    (durs dists : List (List ℚ)) (oracle : Nat → RouteResult)
    (h4 : dests.length = 4) (hdu : durs ≠ []) (hdi : dists ≠ []) :
    ∃ res calls b,
      solve_tsp_route origin dests rto (.resp 200 ⟨some durs, some dists⟩) oracle
        = (.ok res, calls) ∧
      b ∈ permsLex destIndices ∧
      res.ranked_destinations.length = 4 ∧
      (∀ i, i < 4 → (res.ranked_destinations.getD i defaultEntry).rank = i + 1) ∧
      (res.ranked_destinations.getD 0 defaultEntry).leg.fromLabel = origin.label ∧
      (∀ i, 0 < i → i < 4 →
        (res.ranked_destinations.getD i defaultEntry).leg.fromLabel
          = (res.ranked_destinations.getD (i - 1) defaultEntry).label) ∧
      ∀ i, i < 4 →
        (res.ranked_destinations.getD i defaultEntry).label
            = (dests.getD ((b.getD i 0) - 1) defaultPoint).label ∧
        (res.ranked_destinations.getD i defaultEntry).lat
            = (dests.getD ((b.getD i 0) - 1) defaultPoint).lat ∧
        (res.ranked_destinations.getD i defaultEntry).lon
            = (dests.getD ((b.getD i 0) - 1) defaultPoint).lon := by
  obtain ⟨b, l1, l2, ranked, calls, hsel, hdecomp, hl1, hl2, hb4, hrec, hsol, hlen, hprops⟩ :=
    solve_ok_spec origin dests rto 200 durs dists oracle h4 hdu hdi (by omega)
  have hbmem : b ∈ permsLex destIndices := by
    rw [hdecomp]
    exact List.mem_append_right l1 (List.mem_cons_self b l2)
  refine ⟨_, _, b, hsol, hbmem, hlen, ?_, ?_, ?_, ?_⟩
  · intro i hi
    have h := (hprops i hi).1
    show (ranked.getD i defaultEntry).rank = i + 1
    omega
  · have h0 := (hprops 0 (by omega)).2.2.2.2
    show (ranked.getD 0 defaultEntry).leg.fromLabel = origin.label
    simpa using h0
  · intro i h0i hi4
    have hfi := (hprops i hi4).2.2.2.2
    have hlab := (hprops (i - 1) (by omega)).2.1
    rw [if_neg (show ¬ i = 0 by omega)] at hfi
    show (ranked.getD i defaultEntry).leg.fromLabel
      = (ranked.getD (i - 1) defaultEntry).label
    rw [hfi, hlab]
  · intro i hi
    exact ⟨(hprops i hi).2.1, (hprops i hi).2.2.1, (hprops i hi).2.2.2.1⟩

theorem tsp_ranked_chain_witness :
    ∃ res calls b,
      solve_tsp_route originO destsABCD false (.resp 200 ⟨some mLine, some mLine⟩)
          oracleLeg2Fails
        = (.ok res, calls) ∧
      b ∈ permsLex destIndices ∧
      res.ranked_destinations.length = 4 ∧
      (∀ i, i < 4 → (res.ranked_destinations.getD i defaultEntry).rank = i + 1) ∧
      (res.ranked_destinations.getD 0 defaultEntry).leg.fromLabel = originO.label ∧
      (∀ i, 0 < i → i < 4 →
        (res.ranked_destinations.getD i defaultEntry).leg.fromLabel
          = (res.ranked_destinations.getD (i - 1) defaultEntry).label) ∧
      ∀ i, i < 4 →
        (res.ranked_destinations.getD i defaultEntry).label
            = (destsABCD.getD ((b.getD i 0) - 1) defaultPoint).label ∧
        (res.ranked_destinations.getD i defaultEntry).lat
            = (destsABCD.getD ((b.getD i 0) - 1) defaultPoint).lat ∧
        (res.ranked_destinations.getD i defaultEntry).lon
            = (destsABCD.getD ((b.getD i 0) - 1) defaultPoint).lon :=
  tsp_ranked_chain originO destsABCD false mLine mLine oracleLeg2Fails
    (by decide) (by decide) (by decide)

/-- C5: a destination count other than 4 makes the solve fail with the
invalid-input message before issuing any upstream call: the call trace is
empty (no matrix call, no detail-route call), for every table outcome and
detail-route oracle. -/
theorem count_guard_no_network (origin : Point) (dests : List Point) (rto : Bool)
    (tbl : HttpOutcome) (oracle : Nat → RouteResult) (h : dests.length ≠ 4) :
    solve_tsp_route origin dests rto tbl oracle
      = (.error "Exactly 4 destinations are required for TSP solving", []) := by
  rw [solve_tsp_route, if_pos h]

theorem count_guard_no_network_witness :
    solve_tsp_route originO destsABC false (.transportFail "never sent") oracleFailAll
        = (.error "Exactly 4 destinations are required for TSP solving", []) ∧
    solve_tsp_route originO (destsABCD ++ destsABC) false (.transportFail "never sent")
          oracleFailAll
        = (.error "Exactly 4 destinations are required for TSP solving", []) :=
  ⟨count_guard_no_network originO destsABC false (.transportFail "never sent") oracleFailAll
      (by decide),
   count_guard_no_network originO (destsABCD ++ destsABC) false (.transportFail "never sent")
      oracleFailAll (by decide)⟩

/-- C4 counterexample: an HTTP 300 response is not a 2xx status, yet
`raise_for_status` raises only for 4xx/5xx, so the table body is accepted
and the solve succeeds instead of aborting. -/
theorem matrix_non2xx_accepted :
    isOkE (solve_tsp_route originO destsABCD false
        (.resp 300 ⟨some mLine, some mLine⟩) oracleLeg2Fails).fst = true ∧
    ¬ (200 ≤ 300 ∧ 300 < 300) := by
  obtain ⟨b, l1, l2, ranked, calls, hsel, hdecomp, hl1, hl2, hb4, hrec, hsol, hlen, hprops⟩ :=
    solve_ok_spec originO destsABCD false 300 mLine mLine oracleLeg2Fails
      (by decide) (by decide) (by decide) (by omega)
  refine ⟨?_, by omega⟩
  rw [hsol]
  rfl

/-- A table request outcome `raise_for_status` raises on: a transport
failure, or an HTTP 4xx/5xx status. -/
def tableFails : HttpOutcome → Prop
  | .transportFail _ => True
  | .resp st _ => 400 ≤ st ∧ st < 600

/-- A returned table whose `durations` or `distances` sub-table is missing
or empty. -/
def tableLacksData : HttpOutcome → Prop
  | .transportFail _ => False
  | .resp _ body => falsyTable body.durations = true ∨ falsyTable body.distances = true

/-- C4 (amended): if the single matrix-table request ends in a transport
failure or an HTTP 4xx/5xx response (with no retry: exactly one table call
is issued), or the returned table lacks the distances or durations
sub-table or either is empty, the solve aborts with a provider-unavailable
failure and produces no partial result; a non-2xx status outside 4xx/5xx is
not raised by the client and does not abort. -/
theorem matrix_failure_aborts (origin : Point) (dests : List Point) (rto : Bool)
    (tbl : HttpOutcome) (oracle : Nat → RouteResult)
    (h4 : dests.length = 4) (hbad : tableFails tbl ∨ tableLacksData tbl) :
    ∃ msg, solve_tsp_route origin dests rto tbl oracle = (.error msg, [Call.tableCall]) ∧
      ((∃ e, msg = "Failed to get distance matrix: " ++ e) ∨
        msg = "Invalid response from OSRM Table API") := by
  cases tbl with
  | transportFail d =>
    refine ⟨"Failed to get distance matrix: " ++ d, ?_, Or.inl ⟨d, rfl⟩⟩
    rw [solve_tsp_route, if_neg (fun h => h h4)]
    rfl
  | resp st body =>
    by_cases hf : 400 ≤ st ∧ st < 600
    · refine ⟨"Failed to get distance matrix: " ++ ("HTTP " ++ toString st), ?_,
        Or.inl ⟨"HTTP " ++ toString st, rfl⟩⟩
      have htc : tableClient (.resp st body) = .error ("HTTP " ++ toString st) := by
        simp [tableClient, hf]
      rw [solve_tsp_route, if_neg (fun h => h h4), htc]
    · have hlacks : tableLacksData (.resp st body) := by
        rcases hbad with hfail | hlk
        · exact absurd hfail hf
        · exact hlk
      have htc : tableClient (.resp st body) = .ok body := by
        simp [tableClient, hf]
      have hcond : (falsyTable body.durations || falsyTable body.distances) = true := by
        rcases hlacks with h | h
        · simp [h]
        · simp [h]
      refine ⟨"Invalid response from OSRM Table API", ?_, Or.inr rfl⟩
      rw [solve_tsp_route, if_neg (fun h => h h4)]
      simp only [htc, hcond, if_true]

theorem matrix_failure_aborts_witness :
    (∃ msg, solve_tsp_route originO destsABCD false (.transportFail "connection refused")
          oracleFailAll
        = (.error msg, [Call.tableCall]) ∧
      ((∃ e, msg = "Failed to get distance matrix: " ++ e) ∨
        msg = "Invalid response from OSRM Table API")) ∧
    (∃ msg, solve_tsp_route originO destsABCD false (.resp 503 ⟨some mLine, some mLine⟩)
          oracleFailAll
        = (.error msg, [Call.tableCall]) ∧
      ((∃ e, msg = "Failed to get distance matrix: " ++ e) ∨
        msg = "Invalid response from OSRM Table API")) ∧
    (∃ msg, solve_tsp_route originO destsABCD false (.resp 200 ⟨some mLine, some []⟩)
          oracleFailAll
        = (.error msg, [Call.tableCall]) ∧
      ((∃ e, msg = "Failed to get distance matrix: " ++ e) ∨
        msg = "Invalid response from OSRM Table API")) :=
  ⟨matrix_failure_aborts originO destsABCD false (.transportFail "connection refused")
      oracleFailAll (by decide) (Or.inl trivial),
   matrix_failure_aborts originO destsABCD false (.resp 503 ⟨some mLine, some mLine⟩)
      oracleFailAll (by decide) (Or.inl (by exact ⟨by omega, by omega⟩)),
   matrix_failure_aborts originO destsABCD false (.resp 200 ⟨some mLine, some []⟩)
      oracleFailAll (by decide) (Or.inr (Or.inr rfl))⟩

lemma permsLex_eval : permsLex destIndices
    = [[1, 2, 3, 4], [1, 2, 4, 3], [1, 3, 2, 4], [1, 3, 4, 2], [1, 4, 2, 3], [1, 4, 3, 2],
       [2, 1, 3, 4], [2, 1, 4, 3], [2, 3, 1, 4], [2, 3, 4, 1], [2, 4, 1, 3], [2, 4, 3, 1],
       [3, 1, 2, 4], [3, 1, 4, 2], [3, 2, 1, 4], [3, 2, 4, 1], [3, 4, 1, 2], [3, 4, 2, 1],
       [4, 1, 2, 3], [4, 1, 3, 2], [4, 2, 1, 3], [4, 2, 3, 1], [4, 3, 1, 2], [4, 3, 2, 1]] := by
  decide

/-- On the line matrix the permutation loop selects the identity order with
total distance and duration 4. -/
lemma select_mLine_eval : select mLine mLine false = some ([1, 2, 3, 4], 4, 4) := by
  rw [select, permsLex_eval]
  norm_num [selStep, totalDistanceOf, totalDurationOf, routeIndices, pathCost, cell, mLine]

/-- C3 (code-bug evaluation): with the line matrix (identity permutation
`[1,2,3,4]` uniquely optimal) and the detail-route call failing for leg 2
only, the overall solve still succeeds and leg 2's geometry is absent, but
the fallback reads the matrix row indexed by the destination's position in
the winning order (row 2) instead of the previous point's index (row 1):
leg 2 gets `distances[2][2] = 0` and `durations[2][2] = 0` instead of the
consecutive-pair cells `distances[1][2] = 1` / `durations[1][2] = 1`.
The other legs take the oracle's candidate (distance 100). -/
theorem tsp_leg_fallback_wrong_cell :
    isOkE (solve_tsp_route originO destsABCD false
        (.resp 200 ⟨some mLine, some mLine⟩) oracleLeg2Fails).fst = true ∧
    ((okOrDefault (solve_tsp_route originO destsABCD false
        (.resp 200 ⟨some mLine, some mLine⟩) oracleLeg2Fails).fst).ranked_destinations.getD 1
          defaultEntry).leg.geometry = none ∧
    ((okOrDefault (solve_tsp_route originO destsABCD false
        (.resp 200 ⟨some mLine, some mLine⟩) oracleLeg2Fails).fst).ranked_destinations.getD 1
          defaultEntry).leg.distance_m = 0 ∧
    ((okOrDefault (solve_tsp_route originO destsABCD false
        (.resp 200 ⟨some mLine, some mLine⟩) oracleLeg2Fails).fst).ranked_destinations.getD 1
          defaultEntry).leg.duration_s = 0 ∧
    cell mLine 1 2 = 1 ∧
    ((okOrDefault (solve_tsp_route originO destsABCD false
        (.resp 200 ⟨some mLine, some mLine⟩) oracleLeg2Fails).fst).ranked_destinations.getD 0
          defaultEntry).leg.distance_m = 100 ∧
    ((okOrDefault (solve_tsp_route originO destsABCD false
        (.resp 200 ⟨some mLine, some mLine⟩) oracleLeg2Fails).fst).ranked_destinations.getD 2
          defaultEntry).leg.distance_m = 100 := by
  obtain ⟨b, l1, l2, ranked, calls, hsel, hdecomp, hl1, hl2, hb4, hrec, hsol, hlen, hprops⟩ :=
    solve_ok_spec originO destsABCD false 200 mLine mLine oracleLeg2Fails
      (by decide) (by decide) (by decide) (by omega)
  have hb : b = [1, 2, 3, 4] := by
    have h := hsel.symm.trans select_mLine_eval
    simp only [Option.some.injEq, Prod.mk.injEq] at h
    exact h.1
  subst hb
  have h3 : ranked
      = (match (reconAux mLine mLine originO destsABCD [1, 2, 3, 4] oracleLeg2Fails
            [1, 2, 3, 4] 1 originO).fst with
         | .ok l => l
         | .error _ => []) := by
    rw [hrec]
  refine ⟨?_, ?_, ?_, ?_, by decide, ?_, ?_⟩ <;> rw [hsol]
  · rfl
  · show (ranked.getD 1 defaultEntry).leg.geometry = none
    rw [h3]
    rfl
  · show (ranked.getD 1 defaultEntry).leg.distance_m = 0
    rw [h3]
    rfl
  · show (ranked.getD 1 defaultEntry).leg.duration_s = 0
    rw [h3]
    rfl
  · show (ranked.getD 0 defaultEntry).leg.distance_m = 100
    rw [h3]
    rfl
  · show (ranked.getD 2 defaultEntry).leg.distance_m = 100
    rw [h3]
    rfl

end Routing
